import Mathlib

/-!
# Verification of the greenbucks receipt-processing pipeline

Shallow embedding of `backend/app/services/eco_scoring.py`,
`backend/app/services/integrations/item_category_map.py`,
`backend/app/services/integrations/climatiq_client.py`,
`backend/app/services/integrations/ocr_google_vision.py` and
`backend/app/api/routes/receipts.py`.

Modelling conventions:
* Python `Decimal` values are modelled as exact rationals (`ℚ`).  `Decimal`
  addition and multiplication are exact at the magnitudes the pipeline
  handles, and `Decimal(str(x))` of a decimal literal is exact.
* Python `float` values fed into `Decimal(str(m))` are modelled by the exact
  rational value of their shortest decimal representation (the value `str`
  produces), i.e. exactly the number the `Decimal` arithmetic then uses.
* `Decimal.quantize` under the default context rounds half-to-even; this is
  embedded by `roundHalfEven` / `quantize2`.
* `None` becomes `Option.none`; exceptions that a function catches internally
  disappear (the function is total); exceptions surfaced to the caller
  (`HTTPException`) become an explicit error value.
-/

/-- Round a rational to the nearest integer, ties to even — the semantics of
Python `Decimal.quantize(Decimal("1"))` under the default context
(`ROUND_HALF_EVEN`). -/
def roundHalfEven (q : ℚ) : ℤ :=
  if q - ⌊q⌋ < 1/2 then ⌊q⌋
  else if 1/2 < q - ⌊q⌋ then ⌊q⌋ + 1
  else if ⌊q⌋ % 2 = 0 then ⌊q⌋ else ⌊q⌋ + 1

/-- Round to two decimal places, ties to even — the semantics of
`Decimal.quantize(Decimal("0.01"))` under the default context. -/
def quantize2 (q : ℚ) : ℚ :=
  (roundHalfEven (100 * q) : ℚ) / 100

/-- Round a rational to the nearest integer, ties away from zero
(`ROUND_HALF_UP` in `decimal` terminology).  This is the rounding mode the
specification text asserts; it is NOT what the code does. -/
def roundHalfUp (q : ℚ) : ℤ :=
  if q - ⌊q⌋ < 1/2 then ⌊q⌋
  else if 1/2 < q - ⌊q⌋ then ⌊q⌋ + 1
  else if 0 ≤ q then ⌊q⌋ + 1 else ⌊q⌋

/-- Round to two decimals, ties half-up — the rounding the spec asserts. -/
def quantizeHU2 (q : ℚ) : ℚ :=
  (roundHalfUp (100 * q) : ℚ) / 100

/-- `eco_scoring.score_from_co2e_per_dollar`: map kgCO2e per dollar to an
integer eco score 0..10; `none` (unknown ratio) gives the neutral 5. -/
def score_from_co2e_per_dollar : Option ℚ → ℤ
  | none => 5
  | some x =>
    if x ≤ 5/100 then 10
    else if x ≤ 10/100 then 9
    else if x ≤ 20/100 then (if x ≤ 15/100 then 8 else 7)
    else if x ≤ 40/100 then (if x ≤ 30/100 then 6 else 5)
    else if x ≤ 80/100 then (if x ≤ 60/100 then 4 else 3)
    else if x ≤ 12/10 then 2 else if x ≤ 2 then 1 else 0

/-- The per-score bonus multiplier actually used by `compute_cashback`.  The
source computes `0.15 + (s / 10.0) * (5.0 - 0.15)` in IEEE-754 double
precision for the clamped score `s ≠ 0` and then feeds `Decimal(str(m))` into
exact decimal arithmetic.  Each branch below is the exact rational value of
that `str(m)` (e.g. for score 2 the double evaluation yields the shortest
repr `1.1199999999999999`, not `1.12`). -/
def multTable (s : ℤ) : ℚ :=
  if s = 0 then 15/100
  else if s = 1 then 635/1000
  else if s = 2 then 11199999999999999/10000000000000000
  else if s = 3 then 16049999999999998/10000000000000000
  else if s = 4 then 209/100
  else if s = 5 then 25749999999999997/10000000000000000
  else if s = 6 then 30599999999999996/10000000000000000
  else if s = 7 then 35449999999999995/10000000000000000
  else if s = 8 then 403/100
  else if s = 9 then 4515000000000001/1000000000000000
  else 5

/-- `eco_scoring.map_score_to_multiplier`: clamp the score to [0,10], then the
double-precision multiplier as tabulated in `multTable`. -/
def map_score_to_multiplier (score : ℤ) : ℚ :=
  multTable (max 0 (min 10 score))

/-- `eco_scoring.compute_cashback`: base 1% plus eco bonus, quantized to two
decimals by the default (half-even) `Decimal` rounding. -/
def compute_cashback (amount : ℚ) (score : Option ℤ) : ℚ :=
  match score with
  | none => quantize2 (amount * (1/100))
  | some s =>
      quantize2 (amount * (1/100) + amount * (1/100) * map_score_to_multiplier s)

/-- The bonus multiplier exactly as claim C3 words it: `0.15` at clamped
score 0, else `0.15 + (score/10)·(5.0−0.15)` as exact real arithmetic.
Spec-side definition, used only to compare against the code's value. -/
def multiplier_claim (score : ℤ) : ℚ :=
  if max 0 (min 10 score) = 0 then 15/100
  else 15/100 + ((max 0 (min 10 score) : ℤ) : ℚ)/10 * (5 - 15/100)

/-- The cashback exactly as claim C3 words it: exact multiplier formula and
half-up rounding to two decimals.  Spec-side definition for comparison. -/
def compute_cashback_claim (amount : ℚ) (score : Option ℤ) : ℚ :=
  match score with
  | none => quantizeHU2 (amount * (1/100))
  | some s =>
      quantizeHU2 (amount * (1/100) + amount * (1/100) * multiplier_claim s)

/-- Bool test: does `needle` occur at the start of the second list? -/
def listStartsWith : List Char → List Char → Bool
  | [], _ => true
  | _ :: _, [] => false
  | a :: as, b :: bs => a == b && listStartsWith as bs

/-- Bool test: does `needle` occur as a contiguous sublist?  Embeds Python's
`key in n` substring test. -/
def listContainsSub (needle : List Char) : List Char → Bool
  | [] => needle.isEmpty
  | c :: rest => listStartsWith needle (c :: rest) || listContainsSub needle rest

/-- `needle in hay` on strings. -/
def strContains (hay needle : String) : Bool :=
  listContainsSub needle.toList hay.toList

/-- ASCII lower-casing of one character; Python `str.lower` restricted to
ASCII, which covers every string this pipeline compares. -/
def charLower (c : Char) : Char :=
  if 'A' ≤ c ∧ c ≤ 'Z' then Char.ofNat (c.toNat + 32) else c

/-- Python `str.lower` (ASCII model). -/
def pyLower (s : String) : String := String.mk (s.toList.map charLower)

/-- `item_category_map.FALLBACK_KG_CO2E_PER_USD`: the ordered keyword→factor
table, factors as exact rationals. -/
def FALLBACK_KG_CO2E_PER_USD : List (String × ℚ) :=
  [("organic", 5/100), ("kale", 6/100), ("banana", 8/100), ("coffee", 25/100),
   ("beef", 5), ("chicken", 18/10), ("pork", 3), ("rice", 4/10),
   ("bread", 3/10), ("salad", 2/10), ("grocery", 3/10), ("shirt", 12/10),
   ("electronics", 6/10), ("toy", 5/10), ("book", 2/10)]

/-- `item_category_map.DEFAULT_KG_CO2E_PER_USD`. -/
def DEFAULT_KG_CO2E_PER_USD : ℚ := 5/10

/-- `item_category_map.lookup_kg_co2e_per_usd`: first keyword of the ordered
table occurring (case-insensitively) in the name, else the default. -/
def lookup_kg_co2e_per_usd (name : String) : ℚ :=
  match FALLBACK_KG_CO2E_PER_USD.find? (fun kv => strContains (pyLower name) kv.1) with
  | some kv => kv.2
  | none => DEFAULT_KG_CO2E_PER_USD

/-- `climatiq_client._mock_estimate`: factor times price, price defaulting to
1.0 when absent.  The source's final `float(Decimal(str(factor)) *
Decimal(str(price)))` is modelled as the exact rational product. -/
def _mock_estimate (name : String) (price : Option ℚ) (_qty : Option ℤ) : ℚ :=
  lookup_kg_co2e_per_usd name * price.getD 1

/-- The configuration flags `core.config.get_settings` exposes to the two
adapters (that module is not under src/; these four fields are exactly the
ones the adapters read). -/
structure Settings where
  use_real_ocr : Bool
  google_vision_api_key : String
  use_real_climatiq : Bool
  climatiq_api_key : String

/-- `climatiq_client.estimate_item_footprint`: both the mock branch and the
real branch of the source return `_mock_estimate` (the real integration is a
placeholder, and its `except` handler also falls back), so every adapter
behaviour yields the deterministic fallback. -/
def estimate_item_footprint (s : Settings) (name : String) (price : Option ℚ)
    (qty : Option ℤ) : ℚ :=
  if !s.use_real_climatiq || s.climatiq_api_key == "" then _mock_estimate name price qty
  else _mock_estimate name price qty

/-- `ocr_google_vision.ParsedItem`. -/
structure ParsedItem where
  name : String
  price : Option ℚ
  qty : Option ℤ
deriving DecidableEq

/-- `ocr_google_vision._mock_parse` (the image bytes argument is unused in
the source). -/
def _mock_parse : List ParsedItem := [⟨"Unknown Item", none, none⟩]

/-- Outcome of the remote Vision call in the real path: `failure` covers any
exception (network error, non-2xx via `raise_for_status`, malformed JSON
during field access); `success text` is the extracted
`fullTextAnnotation.text` (with `""` when the field chain is absent). -/
inductive OcrOutcome where
  | failure
  | success (text : String)

/-- Python whitespace (`str.strip` / regex `\s`), ASCII model. -/
def pyIsSpace (c : Char) : Bool :=
  c == ' ' || c == '\t' || c == '\n' || c == '\r' || c == '\x0b' || c == '\x0c'

/-- Numeric value of a digit string. -/
def digitsToNat (ds : List Char) : ℕ :=
  ds.foldl (fun n c => 10 * n + (c.toNat - '0'.toNat)) 0

/-- The anchored fragment `[\s\t]+\$?\d+\.\d{1,2}$` of the price regex,
applied to a suffix of the line: leading whitespace, optional dollar sign,
integer digits, a dot, one or two fraction digits, end of line.  Returns the
price value (exact; the source's `float(...)` conversion is modelled as
exact). -/
def matchTailPrice (cs : List Char) : Option ℚ :=
  let ws := cs.takeWhile pyIsSpace
  if ws.isEmpty then none else
  let rest := cs.drop ws.length
  let rest2 := if rest.head? = some '$' then rest.tail else rest
  let ip := rest2.takeWhile Char.isDigit
  if ip.isEmpty then none else
  let rest3 := rest2.drop ip.length
  if rest3.head? = some '.' then
    let frac := rest3.tail
    if !frac.isEmpty && frac.length ≤ 2 && frac.all Char.isDigit then
      some ((digitsToNat ip : ℚ) + (digitsToNat frac : ℚ) / 10 ^ frac.length)
    else none
  else none

/-- `re.search` of `(?P<name>.*?)[\s\t]+\$?(?P<price>\d+\.\d{1,2})$`: the
lazy name group makes the match the one with the SHORTEST name, i.e. the
earliest split point whose tail matches the price fragment. -/
def findPriceSplit : List Char → Option (List Char × ℚ)
  | [] => (matchTailPrice []).map (fun p => ([], p))
  | c :: rest =>
      match matchTailPrice (c :: rest) with
      | some p => some ([], p)
      | none => (findPriceSplit rest).map (fun np => (c :: np.1, np.2))

/-- Python `str.strip()` (ASCII whitespace model). -/
def pyStrip (cs : List Char) : List Char :=
  ((cs.dropWhile pyIsSpace).reverse.dropWhile pyIsSpace).reverse

/-- The character set of the source's `name.strip("-: .\t")`. -/
def nameStripSet : List Char := ['-', ':', ' ', '.', '\t']

/-- `str.strip("-: .\t")`. -/
def stripNameChars (cs : List Char) : List Char :=
  ((cs.dropWhile (nameStripSet.contains ·)).reverse.dropWhile
    (nameStripSet.contains ·)).reverse

/-- One iteration of the line loop in `ocr_google_vision.parse_receipt`:
strip the line, skip it when shorter than 2 characters, search the price
regex, strip separator punctuation off the name, and keep the item only when
the name is non-empty. -/
def parseLine (raw_line : List Char) : Option ParsedItem :=
  let line := pyStrip raw_line
  if line.length < 2 then none
  else
    match findPriceSplit line with
    | none => none
    | some (nm, p) =>
        let name := stripNameChars nm
        if name.isEmpty then none
        else some ⟨String.mk name, some p, none⟩

/-- Python `str.splitlines` boundary characters (the last two escapes are
U+2028 LINE SEPARATOR and U+2029 PARAGRAPH SEPARATOR). -/
def isLineBreak (c : Char) : Bool :=
  c == '\n' || c == '\r' || c == '\x0b' || c == '\x0c' || c == '\x1c' ||
  c == '\x1d' || c == '\x1e' || c == '\x85' || c == '\u2028' || c == '\u2029'

/-- `str.splitlines`: split on boundary characters, treating `\r\n` as one
boundary and producing no trailing empty line. -/
def splitLinesAux : List Char → List Char → List (List Char)
  | [], acc => if acc.isEmpty then [] else [acc.reverse]
  | '\r' :: '\n' :: rest, acc => acc.reverse :: splitLinesAux rest []
  | c :: rest, acc =>
      if isLineBreak c then acc.reverse :: splitLinesAux rest []
      else splitLinesAux rest (c :: acc)

/-- `str.splitlines` on a character list. -/
def splitLines (cs : List Char) : List (List Char) := splitLinesAux cs []

/-- `ocr_google_vision.parse_receipt`: mock path when recognition is
disabled or the key is unset; otherwise the real path, which falls back to
the mock item on adapter failure, on empty text, and when no line parses. -/
def parse_receipt (s : Settings) (o : OcrOutcome) : List ParsedItem :=
  if !s.use_real_ocr || s.google_vision_api_key == "" then _mock_parse
  else
    match o with
    | .failure => _mock_parse
    | .success text =>
        if text == "" then _mock_parse
        else
          if ((splitLines text.toList).filterMap parseLine).isEmpty then _mock_parse
          else (splitLines text.toList).filterMap parseLine

/-- `models.receipt.ReceiptItem` (the ORM model file is not under src/;
fields are the ones `receipts.upload_receipt` writes, with the two derived
columns nullable). -/
structure ReceiptItem where
  transaction_id : ℤ
  name : String
  price : Option ℚ
  qty : Option ℤ
  kg_co2e : Option ℚ
  item_score : Option ℤ
deriving DecidableEq

/-- `models.plaid.Transaction`, restricted to the fields the upload route
reads or writes. -/
structure Transaction where
  id : ℤ
  user_id : ℤ
  amount : ℚ
  eco_score : Option ℤ
  needs_receipt : Bool
  cashback_usd : Option ℚ
deriving DecidableEq

/-- The persisted state the upload route touches. -/
structure DB where
  transactions : List Transaction
  receipt_items : List ReceiptItem
deriving DecidableEq

/-- The JSON payload `upload_receipt` returns (`cashback_usd` is stringified
in the source; modelled as the underlying decimal value). -/
structure UploadResult where
  transaction_id : ℤ
  eco_score : ℤ
  cashback_usd : ℚ
  items : ℕ
deriving DecidableEq

/-- The two `HTTPException`s `upload_receipt` raises: 404 "Transaction not
found for user" and 400 "Could not parse receipt". -/
inductive UploadError where
  | notFound
  | badRequest
deriving DecidableEq

/-- The lookup filter `Transaction.id == transaction_id and
Transaction.user_id == user_id`. -/
def txPred (uid txid : ℤ) (t : Transaction) : Bool :=
  t.id == txid && t.user_id == uid

/-- The per-item body of the upload loop: default the name, estimate the
footprint, and band the per-dollar ratio when the price is positive (else
score 5).  Ratio division is modelled exactly. -/
def scoredItem (s : Settings) (txid : ℤ) (it : ParsedItem) : ReceiptItem :=
  let name := if it.name == "" then "Unknown" else it.name
  let kg := estimate_item_footprint s name it.price it.qty
  let sc : ℤ :=
    match it.price with
    | some p => if 0 < p then score_from_co2e_per_dollar (some (kg / p)) else 5
    | none => 5
  ⟨txid, name, it.price, it.qty, some kg, some sc⟩

/-- All items inserted by one upload. -/
def newItems (s : Settings) (txid : ℤ) (items : List ParsedItem) : List ReceiptItem :=
  items.map (scoredItem s txid)

/-- Contribution of one stored item to `total_price` (only positive prices
count, per `if price and price > 0`). -/
def posP (ri : ReceiptItem) : ℚ :=
  match ri.price with
  | some p => if 0 < p then p else 0
  | none => 0

/-- Contribution of one stored item to `weighted_score_sum`. -/
def posPS (ri : ReceiptItem) : ℚ :=
  match ri.price, ri.item_score with
  | some p, some sc => if 0 < p then p * (sc : ℚ) else 0
  | _, _ => 0

/-- Python `int(...)` on a real value: truncation toward zero. -/
def pyTrunc (q : ℚ) : ℤ := if 0 ≤ q then ⌊q⌋ else -⌊-q⌋

/-- The transaction-score aggregation of `receipts.upload_receipt` (lines
64–71): price-weighted mean rounded by `quantize(Decimal("1"))` (half-even;
the 28-significant-digit division of the default `Decimal` context is
modelled as exact) when some price is positive; otherwise `int(sum/len)`
over the just-inserted items' scores (the source reads them back from the
session; the read-back equals the inserted list, and its
`it.get("item_score")` is modelled as attribute access on the ORM row, the
only reading under which the branch functions); 5 when there are none. -/
def aggregate_score (l : List ReceiptItem) : ℤ :=
  if 0 < (l.map posP).sum then
    roundHalfEven ((l.map posPS).sum / (l.map posP).sum)
  else
    if (l.filterMap ReceiptItem.item_score).isEmpty then 5
    else pyTrunc (((l.filterMap ReceiptItem.item_score).sum : ℚ)
          / ((l.filterMap ReceiptItem.item_score).length : ℚ))

/-- `receipts.upload_receipt` after extraction, parameterised by the
extracted item list: transaction lookup, the empty-items guard, wholesale
delete of the transaction's previous items, insertion of the newly scored
items, aggregation, clamping, cashback, and the single commit.  The failure
branches return the database unchanged (the source raises before any
mutation). -/
def process_upload (s : Settings) (db : DB) (user_id transaction_id : ℤ)
    (items : List ParsedItem) : DB × Except UploadError UploadResult :=
  match db.transactions.find? (txPred user_id transaction_id) with
  | none => (db, .error .notFound)
  | some tx =>
    if items.isEmpty then (db, .error .badRequest)
    else
      let news := newItems s tx.id items
      let eco := max 0 (min 10 (aggregate_score news))
      let cb := compute_cashback tx.amount (some eco)
      let tx' : Transaction :=
        { tx with eco_score := some eco, needs_receipt := false, cashback_usd := some cb }
      (⟨db.transactions.map (fun t => if t.id == tx.id then tx' else t),
        db.receipt_items.filter (fun ri => !(ri.transaction_id == tx.id)) ++ news⟩,
       .ok ⟨tx.id, eco, cb, items.length⟩)

/-- The full `receipts.upload_receipt` route body: extraction composed with
the post-extraction processing. -/
def upload_receipt (s : Settings) (db : DB) (uid txid : ℤ) (o : OcrOutcome) :
    DB × Except UploadError UploadResult :=
  process_upload s db uid txid (parse_receipt s o)

/-- The two stored items of the spec's aggregation example:
(price 10, score 8) and (price 30, score 4). -/
def exampleItems : List ReceiptItem :=
  [⟨1, "a", some 10, none, some 3, some 8⟩, ⟨1, "b", some 30, none, some 120, some 4⟩]

/-- A neutral configuration: recognition and the carbon service disabled. -/
def mockSettings : Settings := ⟨false, "", false, ""⟩

/-- A transaction for concrete instantiations. -/
def sampleTx : Transaction := ⟨1, 1, 100, none, true, none⟩

/-- A one-transaction store for concrete instantiations. -/
def sampleDB : DB := ⟨[sampleTx], []⟩

theorem roundHalfEven_ge (q : ℚ) : q - 1/2 ≤ (roundHalfEven q : ℚ) := by
  have h1 : (⌊q⌋ : ℚ) ≤ q := Int.floor_le q
  have h2 : q < ⌊q⌋ + 1 := Int.lt_floor_add_one q
  unfold roundHalfEven
  split_ifs <;> push_cast <;> linarith

theorem roundHalfEven_le (q : ℚ) : (roundHalfEven q : ℚ) ≤ q + 1/2 := by
  have h1 : (⌊q⌋ : ℚ) ≤ q := Int.floor_le q
  have h2 : q < ⌊q⌋ + 1 := Int.lt_floor_add_one q
  unfold roundHalfEven
  split_ifs <;> push_cast <;> linarith

theorem roundHalfEven_floor_le (q : ℚ) : ⌊q⌋ ≤ roundHalfEven q := by
  unfold roundHalfEven
  split_ifs <;> omega

theorem roundHalfEven_le_floor_add_one (q : ℚ) : roundHalfEven q ≤ ⌊q⌋ + 1 := by
  unfold roundHalfEven
  split_ifs <;> omega

theorem roundHalfEven_mono {a b : ℚ} (h : a ≤ b) :
    roundHalfEven a ≤ roundHalfEven b := by
  have hf : ⌊a⌋ ≤ ⌊b⌋ := Int.floor_le_floor h
  rcases eq_or_lt_of_le hf with heq | hlt
  · have hab : a - (⌊a⌋ : ℚ) ≤ b - (⌊b⌋ : ℚ) := by
      rw [← heq]; linarith
    unfold roundHalfEven
    rw [← heq] at hab ⊢
    split_ifs <;> first | omega | linarith
  · have h1 := roundHalfEven_le_floor_add_one a
    have h2 := roundHalfEven_floor_le b
    omega

theorem quantize2_ge (q : ℚ) : q - 1/200 ≤ quantize2 q := by
  have := roundHalfEven_ge (100 * q)
  unfold quantize2
  linarith

theorem quantize2_le (q : ℚ) : quantize2 q ≤ q + 1/200 := by
  have := roundHalfEven_le (100 * q)
  unfold quantize2
  linarith

theorem quantize2_mono {a b : ℚ} (h : a ≤ b) : quantize2 a ≤ quantize2 b := by
  have h' : roundHalfEven (100 * a) ≤ roundHalfEven (100 * b) :=
    roundHalfEven_mono (by linarith)
  have h'' : ((roundHalfEven (100 * a) : ℤ) : ℚ) ≤ ((roundHalfEven (100 * b) : ℤ) : ℚ) := by
    exact_mod_cast h'
  unfold quantize2
  linarith

theorem floor_rat_eq (q : ℚ) (n : ℤ) (h1 : (n : ℚ) ≤ q) (h2 : q < (n : ℚ) + 1) :
    ⌊q⌋ = n := by
  rw [Int.floor_eq_iff]
  exact ⟨h1, by linarith⟩

theorem roundHalfEven_eval_lo (n : ℤ) (q : ℚ) (h1 : (n : ℚ) ≤ q)
    (h2 : q < (n : ℚ) + 1/2) : roundHalfEven q = n := by
  have hf : ⌊q⌋ = n := floor_rat_eq q n h1 (by linarith)
  simp only [roundHalfEven, hf]
  rw [if_pos (by linarith)]

theorem roundHalfEven_eval_hi (n : ℤ) (q : ℚ) (h1 : (n : ℚ) + 1/2 < q)
    (h2 : q < (n : ℚ) + 1) : roundHalfEven q = n + 1 := by
  have hf : ⌊q⌋ = n := floor_rat_eq q n (by linarith) h2
  simp only [roundHalfEven, hf]
  rw [if_neg (by linarith), if_pos (by linarith)]

theorem roundHalfEven_eval_tie (n : ℤ) (q : ℚ) (h : q = (n : ℚ) + 1/2) :
    roundHalfEven q = if n % 2 = 0 then n else n + 1 := by
  have hf : ⌊q⌋ = n := floor_rat_eq q n (by linarith) (by linarith)
  simp only [roundHalfEven, hf]
  rw [if_neg (by linarith), if_neg (by linarith)]

theorem roundHalfUp_eval_tie_nonneg (n : ℤ) (q : ℚ) (h : q = (n : ℚ) + 1/2)
    (hq : 0 ≤ q) : roundHalfUp q = n + 1 := by
  have hf : ⌊q⌋ = n := floor_rat_eq q n (by linarith) (by linarith)
  simp only [roundHalfUp, hf]
  rw [if_neg (by linarith), if_neg (by linarith), if_pos hq]

theorem multTable_lower (t : ℤ) (h0 : 0 ≤ t) (h10 : t ≤ 10) :
    15/100 ≤ multTable t := by
  interval_cases t <;> norm_num [multTable]

theorem multiplier_lower_bound (s : ℤ) : 15/100 ≤ map_score_to_multiplier s := by
  unfold map_score_to_multiplier
  exact multTable_lower _ (by omega) (by omega)

theorem multTable_mono {t t' : ℤ} (h0 : 0 ≤ t) (htt : t ≤ t') (h10 : t' ≤ 10) :
    multTable t ≤ multTable t' := by
  have h10' : t ≤ 10 := le_trans htt h10
  have h0' : 0 ≤ t' := le_trans h0 htt
  interval_cases t <;> interval_cases t' <;> norm_num [multTable]

theorem multiplier_mono {s t : ℤ} (h : s ≤ t) :
    map_score_to_multiplier s ≤ map_score_to_multiplier t := by
  unfold map_score_to_multiplier
  exact multTable_mono (by omega) (by omega) (by omega)

set_option maxHeartbeats 2000000 in
theorem banding_anti {a b : ℚ} (h : a ≤ b) :
    score_from_co2e_per_dollar (some b) ≤ score_from_co2e_per_dollar (some a) := by
  simp only [score_from_co2e_per_dollar]
  split_ifs <;> first | rfl | linarith

set_option maxHeartbeats 1000000 in
/-- C1: the banding function realises the inclusive upper-bound table
(≤0.05→10, ≤0.10→9, ≤0.15→8, ≤0.20→7, ≤0.30→6, ≤0.40→5, ≤0.60→4, ≤0.80→3,
≤1.20→2, ≤2.00→1, >2.00→0), returns the neutral 5 on an absent ratio, and is
monotonically non-increasing in the ratio. -/
theorem C1_banding_table (r r' : ℚ) (hrr : r ≤ r') :
    score_from_co2e_per_dollar none = 5
    ∧ (r ≤ 5/100 → score_from_co2e_per_dollar (some r) = 10)
    ∧ (5/100 < r → r ≤ 10/100 → score_from_co2e_per_dollar (some r) = 9)
    ∧ (10/100 < r → r ≤ 15/100 → score_from_co2e_per_dollar (some r) = 8)
    ∧ (15/100 < r → r ≤ 20/100 → score_from_co2e_per_dollar (some r) = 7)
    ∧ (20/100 < r → r ≤ 30/100 → score_from_co2e_per_dollar (some r) = 6)
    ∧ (30/100 < r → r ≤ 40/100 → score_from_co2e_per_dollar (some r) = 5)
    ∧ (40/100 < r → r ≤ 60/100 → score_from_co2e_per_dollar (some r) = 4)
    ∧ (60/100 < r → r ≤ 80/100 → score_from_co2e_per_dollar (some r) = 3)
    ∧ (80/100 < r → r ≤ 12/10 → score_from_co2e_per_dollar (some r) = 2)
    ∧ (12/10 < r → r ≤ 2 → score_from_co2e_per_dollar (some r) = 1)
    ∧ (2 < r → score_from_co2e_per_dollar (some r) = 0)
    ∧ score_from_co2e_per_dollar (some r') ≤ score_from_co2e_per_dollar (some r) := by
  refine ⟨rfl, ?_, ?_, ?_, ?_, ?_, ?_, ?_, ?_, ?_, ?_, ?_, banding_anti hrr⟩ <;>
    · intros
      simp only [score_from_co2e_per_dollar]
      split_ifs <;> first | rfl | linarith

/-- Witness for C1 at concrete ratios. -/
theorem C1_banding_table_witness :
    score_from_co2e_per_dollar (some (4/100)) = 10
    ∧ score_from_co2e_per_dollar (some (21/10)) = 0 :=
  ⟨(C1_banding_table (4/100) (4/100) le_rfl).2.1 (by norm_num),
   ((C1_banding_table (21/10) (21/10) le_rfl).2.2.2.2.2.2.2.2.2.2.2.1 (by norm_num))⟩

/-- C3 counterexample: at amount 0.75 and score 10 the multiplier is exactly
5, so the claim demands half-up rounding of 0.045 → 0.05, but the code's
default-context `quantize` rounds half-to-even → 0.04. -/
theorem C3_counterexample :
    compute_cashback (3/4) (some 10) = 4/100
    ∧ compute_cashback_claim (3/4) (some 10) = 5/100
    ∧ compute_cashback (3/4) (some 10) ≠ compute_cashback_claim (3/4) (some 10) := by
  have em : map_score_to_multiplier 10 = 5 := by
    norm_num [map_score_to_multiplier, multTable]
  have ec : multiplier_claim 10 = 5 := by
    norm_num [multiplier_claim]
  have h1 : compute_cashback (3/4) (some 10) = 4/100 := by
    simp only [compute_cashback, quantize2, em]
    have harg : 100 * ((3:ℚ)/4 * (1/100) + 3/4 * (1/100) * 5) = ((4:ℤ) : ℚ) + 1/2 := by
      norm_num
    rw [harg, roundHalfEven_eval_tie 4 _ rfl]
    norm_num
  have h2 : compute_cashback_claim (3/4) (some 10) = 5/100 := by
    simp only [compute_cashback_claim, quantizeHU2, ec]
    have harg : 100 * ((3:ℚ)/4 * (1/100) + 3/4 * (1/100) * 5) = ((4:ℤ) : ℚ) + 1/2 := by
      norm_num
    rw [harg, roundHalfUp_eval_tie_nonneg 4 _ rfl (by norm_num)]
    norm_num
  refine ⟨h1, h2, ?_⟩
  rw [h1, h2]
  norm_num

/-- C3 amended: cashback is the half-to-even two-decimal rounding of
`amount·1%` when the score is absent, and of
`amount·1%·(1 + m̂ score)` otherwise, where `m̂` is the decimal value the code
derives from the IEEE-754 double evaluation of `0.15 + (score/10)·(5.0−0.15)`
(score clamped to [0,10]); `m̂` differs from the claim's exact formula by at
most 10⁻¹⁵. -/
theorem C3_cashback_amended (q : ℚ) (s : ℤ) (h0 : 0 ≤ s) (h10 : s ≤ 10) :
    compute_cashback q none = quantize2 (q * (1/100))
    ∧ compute_cashback q (some s)
        = quantize2 (q * (1/100) * (1 + map_score_to_multiplier s))
    ∧ |map_score_to_multiplier s - multiplier_claim s| ≤ 1/1000000000000000 := by
  refine ⟨rfl, ?_, ?_⟩
  · simp only [compute_cashback]
    congr 1
    ring
  · interval_cases s <;>
      norm_num [map_score_to_multiplier, multTable, multiplier_claim, abs_le]

/-- Witness for C3 amended at amount 1 and score 5. -/
theorem C3_cashback_amended_witness :
    compute_cashback 1 (some 5)
      = quantize2 ((1 : ℚ) * (1/100) * (1 + map_score_to_multiplier 5)) :=
  (C3_cashback_amended 1 5 (by norm_num) (by norm_num)).2.1

/-- C4 counterexample: the claim asserts cashback ≥ amount·1% for every
positive amount, but at amount 0.30 and score 0 the exact value 0.00345
quantizes to 0.00 < 0.003. -/
theorem C4_counterexample :
    ¬ ((3/10 : ℚ) * (1/100) ≤ compute_cashback (3/10) (some 0)) := by
  have em : map_score_to_multiplier 0 = 15/100 := by
    norm_num [map_score_to_multiplier, multTable]
  have h1 : compute_cashback (3/10) (some 0) = 0 := by
    simp only [compute_cashback, quantize2, em]
    have harg : 100 * ((3:ℚ)/10 * (1/100) + 3/10 * (1/100) * (15/100))
        = (345:ℚ)/1000 := by norm_num
    rw [harg, roundHalfEven_eval_lo 0 _ (by norm_num) (by norm_num)]
    norm_num
  rw [h1]
  norm_num

/-- C4 amended: for scores in [0,10] and positive amount, cashback is at
least `amount·1% − 0.005` (the final two-decimal rounding can lose at most
half a cent), cashback is non-decreasing in the score for fixed amount, and
`cashback(amount,10) > cashback(amount,0)` holds for every amount ≥ 0.21. -/
theorem C4_cashback_bounds_amended (q : ℚ) (s s' : ℤ) (hq : 0 < q)
    (hss : s ≤ s') :
    q * (1/100) - 1/200 ≤ compute_cashback q (some s)
    ∧ compute_cashback q (some s) ≤ compute_cashback q (some s')
    ∧ (21/100 ≤ q →
        compute_cashback q (some 0) < compute_cashback q (some 10)) := by
  have hbase : 0 < q * (1/100) := by positivity
  refine ⟨?_, ?_, ?_⟩
  · have hm := multiplier_lower_bound s
    have h2 := quantize2_ge (q * (1/100) + q * (1/100) * map_score_to_multiplier s)
    simp only [compute_cashback]
    nlinarith
  · have hm := multiplier_mono hss
    simp only [compute_cashback]
    apply quantize2_mono
    nlinarith
  · intro h21
    have e0 : map_score_to_multiplier 0 = 15/100 := by
      norm_num [map_score_to_multiplier, multTable]
    have e10 : map_score_to_multiplier 10 = 5 := by
      norm_num [map_score_to_multiplier, multTable]
    simp only [compute_cashback, e0, e10]
    have hlo := quantize2_ge (q * (1/100) + q * (1/100) * 5)
    have hhi := quantize2_le (q * (1/100) + q * (1/100) * (15/100))
    linarith

/-- Witness for C4 amended at amount 1, scores 0 ≤ 10. -/
theorem C4_cashback_bounds_amended_witness :
    (1 : ℚ) * (1/100) - 1/200 ≤ compute_cashback 1 (some 0)
    ∧ compute_cashback 1 (some 0) ≤ compute_cashback 1 (some 10)
    ∧ compute_cashback 1 (some 0) < compute_cashback 1 (some 10) :=
  ⟨(C4_cashback_bounds_amended 1 0 10 (by norm_num) (by norm_num)).1,
   (C4_cashback_bounds_amended 1 0 10 (by norm_num) (by norm_num)).2.1,
   (C4_cashback_bounds_amended 1 0 10 (by norm_num) (by norm_num)).2.2 (by norm_num)⟩

theorem floor_rat_eval (q : ℚ) (n : ℤ) (h1 : (n : ℚ) ≤ q) (h2 : q < (n : ℚ) + 1) :
    ⌊q⌋ = n :=
  floor_rat_eq q n h1 h2

theorem find?_first {α} (p : α → Bool) (l : List α) (i : ℕ) (hi : i < l.length)
    (hp : p (l.get ⟨i, hi⟩) = true)
    (hprev : ∀ j (hj : j < i), p (l.get ⟨j, Nat.lt_trans hj hi⟩) = false) :
    l.find? p = some (l.get ⟨i, hi⟩) := by
  induction l generalizing i with
  | nil => simp at hi
  | cons a as ih =>
    cases i with
    | zero =>
      simp only [List.get] at hp ⊢
      exact List.find?_cons_of_pos _ hp
    | succ n =>
      have ha : p a = false := hprev 0 (Nat.succ_pos n)
      rw [List.find?_cons_of_neg _ (by simp [ha])]
      simp only [List.get] at hp ⊢
      exact ih n (Nat.lt_of_succ_lt_succ hi) hp
        (fun j hj => hprev (j+1) (Nat.succ_lt_succ hj))

theorem lookup_first_match (name : String) (i : ℕ)
    (hi : i < FALLBACK_KG_CO2E_PER_USD.length)
    (hp : strContains (pyLower name) (FALLBACK_KG_CO2E_PER_USD.get ⟨i, hi⟩).1 = true)
    (hprev : ∀ j (hj : j < i),
      strContains (pyLower name)
        (FALLBACK_KG_CO2E_PER_USD.get ⟨j, Nat.lt_trans hj hi⟩).1 = false) :
    lookup_kg_co2e_per_usd name = (FALLBACK_KG_CO2E_PER_USD.get ⟨i, hi⟩).2 := by
  unfold lookup_kg_co2e_per_usd
  rw [find?_first (fun kv => strContains (pyLower name) kv.1) _ i hi hp hprev]

theorem lookup_default (name : String)
    (h : ∀ kv ∈ FALLBACK_KG_CO2E_PER_USD, strContains (pyLower name) kv.1 = false) :
    lookup_kg_co2e_per_usd name = DEFAULT_KG_CO2E_PER_USD := by
  unfold lookup_kg_co2e_per_usd
  rw [List.find?_eq_none.mpr (fun kv hkv => by simp [h kv hkv])]

theorem parse_receipt_ne_nil (s : Settings) (o : OcrOutcome) : parse_receipt s o ≠ [] := by
  unfold parse_receipt
  split_ifs with h
  · simp [_mock_parse]
  · cases o with
    | failure => simp [_mock_parse]
    | success text =>
      simp only
      split_ifs with h2 h3
      · simp [_mock_parse]
      · simp [_mock_parse]
      · intro heq
        rw [heq] at h3
        exact h3 rfl

theorem matchTailPrice_nonneg (cs : List Char) (p : ℚ)
    (h : matchTailPrice cs = some p) : 0 ≤ p := by
  unfold matchTailPrice at h
  dsimp only at h
  split_ifs at h <;>
    first
      | exact Option.noConfusion h
      | (injection h with h'
         rw [← h']
         positivity)

theorem findPriceSplit_nonneg (cs : List Char) (np : List Char × ℚ)
    (h : findPriceSplit cs = some np) : 0 ≤ np.2 := by
  induction cs generalizing np with
  | nil =>
    unfold findPriceSplit at h
    cases hm : matchTailPrice [] with
    | none => rw [hm] at h; simp at h
    | some p =>
      rw [hm] at h
      simp only [Option.map_some'] at h
      injection h with h'
      rw [← h']
      exact matchTailPrice_nonneg [] p hm
  | cons c rest ih =>
    unfold findPriceSplit at h
    cases hm : matchTailPrice (c :: rest) with
    | some p =>
      rw [hm] at h
      injection h with h'
      rw [← h']
      exact matchTailPrice_nonneg _ p hm
    | none =>
      rw [hm] at h
      cases hf : findPriceSplit rest with
      | none => rw [hf] at h; simp at h
      | some np0 =>
        rw [hf] at h
        simp only [Option.map_some'] at h
        injection h with h'
        rw [← h']
        exact ih np0 hf

theorem parseLine_price (raw : List Char) (it : ParsedItem)
    (h : parseLine raw = some it) : ∃ p, it.price = some p ∧ 0 ≤ p := by
  unfold parseLine at h
  dsimp only at h
  split at h
  · exact absurd h (by simp)
  · split at h
    · exact absurd h (by simp)
    · next nm p heq =>
      split at h
      · exact absurd h (by simp)
      · injection h with h'
        rw [← h']
        exact ⟨p, rfl, findPriceSplit_nonneg _ _ heq⟩

theorem parse_receipt_price_nonneg (s : Settings) (o : OcrOutcome) :
    ∀ it ∈ parse_receipt s o, ∀ p, it.price = some p → 0 ≤ p := by
  unfold parse_receipt
  split_ifs with h
  · intro it hit p hp
    simp [_mock_parse] at hit
    rw [hit] at hp
    simp at hp
  · cases o with
    | failure =>
      intro it hit p hp
      simp [_mock_parse] at hit
      rw [hit] at hp
      simp at hp
    | success text =>
      simp only
      split_ifs with h2 h3
      · intro it hit p hp
        simp [_mock_parse] at hit
        rw [hit] at hp
        simp at hp
      · intro it hit p hp
        simp [_mock_parse] at hit
        rw [hit] at hp
        simp at hp
      · intro it hit p hp
        obtain ⟨raw, _, hpl⟩ := List.mem_filterMap.mp hit
        obtain ⟨p', hp', hnn⟩ := parseLine_price raw it hpl
        rw [hp'] at hp
        injection hp with hpp
        rw [← hpp]
        exact hnn

theorem estimate_eq_mock (s : Settings) (name : String) (price : Option ℚ)
    (qty : Option ℤ) :
    estimate_item_footprint s name price qty = _mock_estimate name price qty := by
  unfold estimate_item_footprint
  split_ifs <;> rfl

theorem banding_range (x : Option ℚ) :
    0 ≤ score_from_co2e_per_dollar x ∧ score_from_co2e_per_dollar x ≤ 10 := by
  cases x with
  | none =>
    exact ⟨by norm_num [score_from_co2e_per_dollar],
           by norm_num [score_from_co2e_per_dollar]⟩
  | some r =>
    simp only [score_from_co2e_per_dollar]
    split_ifs <;> omega

theorem lookup_nonneg (name : String) : 0 ≤ lookup_kg_co2e_per_usd name := by
  unfold lookup_kg_co2e_per_usd
  cases hf : FALLBACK_KG_CO2E_PER_USD.find? (fun kv => strContains (pyLower name) kv.1) with
  | none => norm_num [DEFAULT_KG_CO2E_PER_USD]
  | some kv =>
    have hmem : kv ∈ FALLBACK_KG_CO2E_PER_USD := List.mem_of_find?_eq_some hf
    have hall : ∀ x ∈ FALLBACK_KG_CO2E_PER_USD, 0 ≤ x.2 := by
      intro x hx
      fin_cases hx <;> norm_num
    exact hall kv hmem

theorem scoredItem_invariant (s : Settings) (txid : ℤ) (it : ParsedItem)
    (hprice : ∀ p, it.price = some p → 0 ≤ p) :
    (∃ sc, (scoredItem s txid it).item_score = some sc ∧ 0 ≤ sc ∧ sc ≤ 10)
    ∧ (∃ k, (scoredItem s txid it).kg_co2e = some k ∧ 0 ≤ k) := by
  constructor
  · refine ⟨_, rfl, ?_⟩
    dsimp only [scoredItem]
    cases hp : it.price with
    | none =>
      dsimp only
      constructor <;> norm_num
    | some p =>
      dsimp only
      split_ifs <;> first | exact banding_range _ | (constructor <;> norm_num)
  · refine ⟨_, rfl, ?_⟩
    dsimp only [scoredItem]
    rw [estimate_eq_mock]
    unfold _mock_estimate
    apply mul_nonneg (lookup_nonneg _)
    cases hp : it.price with
    | none => norm_num
    | some p =>
      simp only [Option.getD_some]
      exact hprice p hp

theorem newItems_txid (s : Settings) (txid : ℤ) (items : List ParsedItem) :
    ∀ ri ∈ newItems s txid items, ri.transaction_id = txid := by
  intro ri hri
  simp only [newItems, List.mem_map] at hri
  obtain ⟨it, _, rfl⟩ := hri
  rfl

theorem filter_keep_append (dbitems news : List ReceiptItem) (txid : ℤ)
    (hnews : ∀ ri ∈ news, ri.transaction_id = txid) :
    (dbitems.filter (fun ri => !(ri.transaction_id == txid)) ++ news).filter
        (fun ri => ri.transaction_id == txid) = news := by
  rw [List.filter_append, List.filter_filter]
  have h1 : dbitems.filter
      (fun a => (a.transaction_id == txid) && !(a.transaction_id == txid)) = [] := by
    apply List.filter_eq_nil_iff.mpr
    intro a _
    simp
  have h2 : news.filter (fun ri => ri.transaction_id == txid) = news := by
    apply List.filter_eq_self.mpr
    intro a ha
    simp [hnews a ha]
  rw [h1, h2, List.nil_append]

theorem filter_drop_append (dbitems news : List ReceiptItem) (txid : ℤ)
    (hnews : ∀ ri ∈ news, ri.transaction_id = txid) :
    (dbitems.filter (fun ri => !(ri.transaction_id == txid)) ++ news).filter
        (fun ri => !(ri.transaction_id == txid))
      = dbitems.filter (fun ri => !(ri.transaction_id == txid)) := by
  rw [List.filter_append, List.filter_filter]
  have h1 : (fun (a : ReceiptItem) =>
      !(a.transaction_id == txid) && !(a.transaction_id == txid))
      = (fun a => !(a.transaction_id == txid)) := by
    funext a
    cases a.transaction_id == txid <;> rfl
  have h2 : news.filter (fun ri => !(ri.transaction_id == txid)) = [] := by
    apply List.filter_eq_nil_iff.mpr
    intro a ha
    simp [hnews a ha]
  rw [h1, h2, List.append_nil]

theorem find?_after_update (l : List Transaction) (tx tx' : Transaction) (uid txid : ℤ)
    (hfind : l.find? (txPred uid txid) = some tx)
    (hid : tx'.id = tx.id) (huser : tx'.user_id = tx.user_id) :
    (l.map (fun t => if t.id == tx.id then tx' else t)).find? (txPred uid txid)
      = some tx' := by
  have htx : txPred uid txid tx = true := List.find?_some hfind
  have htxid : tx.id = txid ∧ tx.user_id = uid := by
    simp [txPred] at htx; exact htx
  have htx' : txPred uid txid tx' = true := by
    simp [txPred, hid, huser, htxid.1, htxid.2]
  induction l with
  | nil => simp at hfind
  | cons a as ih =>
    by_cases ha : txPred uid txid a = true
    · rw [List.find?_cons_of_pos _ ha] at hfind
      have : a = tx := by injection hfind
      subst this
      simp only [List.map_cons]
      rw [if_pos (by simp)]
      exact List.find?_cons_of_pos _ htx'
    · rw [List.find?_cons_of_neg _ (by simp [ha])] at hfind
      simp only [List.map_cons]
      by_cases haid : a.id = tx.id
      · rw [if_pos (by simp [haid])]
        exact List.find?_cons_of_pos _ htx'
      · rw [if_neg (by simp [haid])]
        rw [List.find?_cons_of_neg _ (by simp [ha])]
        exact ih hfind

theorem process_upload_success (s : Settings) (db : DB) (uid txid : ℤ)
    (items : List ParsedItem) (tx : Transaction)
    (hfind : db.transactions.find? (txPred uid txid) = some tx) (hne : items ≠ []) :
    process_upload s db uid txid items =
      (⟨db.transactions.map (fun t => if t.id == tx.id then
          { tx with
            eco_score := some (max 0 (min 10 (aggregate_score (newItems s tx.id items)))),
            needs_receipt := false,
            cashback_usd := some (compute_cashback tx.amount
              (some (max 0 (min 10 (aggregate_score (newItems s tx.id items)))))) }
          else t),
        db.receipt_items.filter (fun ri => !(ri.transaction_id == tx.id))
          ++ newItems s tx.id items⟩,
       .ok ⟨tx.id, max 0 (min 10 (aggregate_score (newItems s tx.id items))),
            compute_cashback tx.amount
              (some (max 0 (min 10 (aggregate_score (newItems s tx.id items))))),
            items.length⟩) := by
  have hemp : items.isEmpty = false := by
    cases items with
    | nil => exact absurd rfl hne
    | cons a as => rfl
  unfold process_upload
  rw [hfind]
  dsimp only
  rw [if_neg (by rw [hemp]; simp)]

/-- C2: over the stored items of a transaction, when at least one price is
positive the score is the half-even rounding of the price-weighted mean
Σ(price·score)/Σ(price) over positive-price items — a nearest integer to that
mean (distance at most 1/2); when no price is positive but items exist it is
the floor of the unweighted mean of the item scores (truncation equals floor
for the non-negative scores the pipeline produces); with no items it is 5;
the persisted value is the clamp of this score to [0,10]; the spec example
(price 10, score 8), (price 30, score 4) yields 5. -/
theorem C2_tx_aggregation (l : List ReceiptItem) :
    (0 < (l.map posP).sum →
      aggregate_score l = roundHalfEven ((l.map posPS).sum / (l.map posP).sum)
      ∧ |(aggregate_score l : ℚ) - (l.map posPS).sum / (l.map posP).sum| ≤ 1/2)
    ∧ ((l.map posP).sum ≤ 0 → l.filterMap ReceiptItem.item_score ≠ [] →
       (∀ sc ∈ l.filterMap ReceiptItem.item_score, 0 ≤ sc) →
        aggregate_score l
          = ⌊((l.filterMap ReceiptItem.item_score).sum : ℚ)
              / ((l.filterMap ReceiptItem.item_score).length : ℚ)⌋)
    ∧ ((l.map posP).sum ≤ 0 → l.filterMap ReceiptItem.item_score = [] →
        aggregate_score l = 5)
    ∧ (0 ≤ max 0 (min 10 (aggregate_score l)) ∧ max 0 (min 10 (aggregate_score l)) ≤ 10)
    ∧ aggregate_score exampleItems = 5 := by
  refine ⟨?_, ?_, ?_, ⟨by omega, by omega⟩, ?_⟩
  · intro h
    unfold aggregate_score
    rw [if_pos h]
    refine ⟨rfl, ?_⟩
    rw [abs_le]
    constructor
    · linarith [roundHalfEven_ge ((l.map posPS).sum / (l.map posP).sum)]
    · linarith [roundHalfEven_le ((l.map posPS).sum / (l.map posP).sum)]
  · intro h1 h2 h3
    have hsum : (0:ℤ) ≤ (l.filterMap ReceiptItem.item_score).sum := List.sum_nonneg h3
    unfold aggregate_score
    rw [if_neg (not_lt.mpr h1)]
    have hie : (l.filterMap ReceiptItem.item_score).isEmpty = false := by
      cases hsc : l.filterMap ReceiptItem.item_score with
      | nil => exact absurd hsc h2
      | cons a as => rfl
    rw [if_neg (by rw [hie]; simp)]
    unfold pyTrunc
    rw [if_pos]
    apply div_nonneg
    · exact_mod_cast hsum
    · exact Nat.cast_nonneg _
  · intro h1 h2
    unfold aggregate_score
    rw [if_neg (not_lt.mpr h1), if_pos (by rw [h2]; rfl)]
  · unfold aggregate_score exampleItems
    norm_num [posP, posPS]
    exact roundHalfEven_eval_lo 5 5 (by norm_num) (by norm_num)

/-- Witness for C2 at the spec's example items. -/
theorem C2_tx_aggregation_witness :
    aggregate_score exampleItems
      = roundHalfEven ((exampleItems.map posPS).sum / (exampleItems.map posP).sum)
    ∧ aggregate_score exampleItems = 5 :=
  ⟨((C2_tx_aggregation exampleItems).1
      (by norm_num [exampleItems, posP, posPS])).1,
   (C2_tx_aggregation exampleItems).2.2.2.2⟩

/-- C5: the fallback footprint estimator multiplies the factor of the first
keyword of the ordered table occurring case-insensitively in the item name
(the table default 0.5 when none occurs) by the price, a null price counting
as 1.0, so a footprint value always exists; a name containing "organic"
(hence also one containing both "organic" and "grocery") takes the "organic"
factor 0.05 because table order breaks ties. -/
theorem C5_fallback_estimator (name : String) (price : Option ℚ) (qty : Option ℤ) :
    _mock_estimate name price qty = lookup_kg_co2e_per_usd name * price.getD 1
    ∧ (∀ i (hi : i < FALLBACK_KG_CO2E_PER_USD.length),
        strContains (pyLower name) (FALLBACK_KG_CO2E_PER_USD.get ⟨i, hi⟩).1 = true →
        (∀ j (hj : j < i),
          strContains (pyLower name)
            (FALLBACK_KG_CO2E_PER_USD.get ⟨j, Nat.lt_trans hj hi⟩).1 = false) →
        lookup_kg_co2e_per_usd name = (FALLBACK_KG_CO2E_PER_USD.get ⟨i, hi⟩).2)
    ∧ ((∀ kv ∈ FALLBACK_KG_CO2E_PER_USD, strContains (pyLower name) kv.1 = false) →
        lookup_kg_co2e_per_usd name = DEFAULT_KG_CO2E_PER_USD)
    ∧ (strContains (pyLower name) "organic" = true →
        lookup_kg_co2e_per_usd name = 5/100) := by
  refine ⟨rfl, lookup_first_match name, lookup_default name, ?_⟩
  intro h
  have hfound : FALLBACK_KG_CO2E_PER_USD.find?
      (fun kv => strContains (pyLower name) kv.1) = some ("organic", 5/100) := by
    unfold FALLBACK_KG_CO2E_PER_USD
    exact List.find?_cons_of_pos _ h
  unfold lookup_kg_co2e_per_usd
  rw [hfound]

/-- Witness for C5 at a name containing both "organic" and "grocery". -/
theorem C5_fallback_estimator_witness :
    lookup_kg_co2e_per_usd "Organic Grocery Haul" = 5/100
    ∧ _mock_estimate "Organic Grocery Haul" (some 2) none
      = lookup_kg_co2e_per_usd "Organic Grocery Haul" * (some (2:ℚ)).getD 1 :=
  ⟨(C5_fallback_estimator "Organic Grocery Haul" (some 2) none).2.2.2 (by rfl),
   (C5_fallback_estimator "Organic Grocery Haul" (some 2) none).1⟩

/-- C6: receipt extraction is total (it never surfaces an exception — every
failure is a value of `OcrOutcome` handled below) and never returns an empty
list: when recognition is disabled or unconfigured, when the remote call
fails in any way, and when the recognized text parses to zero price-matching
lines, the result is exactly the single sentinel item
("Unknown Item", no price, no quantity). -/
theorem C6_extraction_fallback (s : Settings) (o : OcrOutcome) (text : String) :
    ((!s.use_real_ocr || s.google_vision_api_key == "") = true →
      parse_receipt s o = [⟨"Unknown Item", none, none⟩])
    ∧ parse_receipt s .failure = [⟨"Unknown Item", none, none⟩]
    ∧ ((splitLines text.toList).filterMap parseLine = [] →
      parse_receipt s (.success text) = [⟨"Unknown Item", none, none⟩])
    ∧ parse_receipt s o ≠ [] := by
  refine ⟨?_, ?_, ?_, parse_receipt_ne_nil s o⟩
  · intro h
    unfold parse_receipt
    rw [if_pos h]
    rfl
  · unfold parse_receipt
    split_ifs with h <;> rfl
  · intro h
    unfold parse_receipt
    dsimp only
    split_ifs with h1 h2 h3
    · rfl
    · rfl
    · rfl
    · exact absurd (by rw [h]; rfl) h3

/-- Witness for C6: a disabled configuration, and an enabled one whose text
has no price-matching line. -/
theorem C6_extraction_fallback_witness :
    parse_receipt mockSettings .failure = [⟨"Unknown Item", none, none⟩]
    ∧ parse_receipt ⟨true, "key", false, ""⟩ (.success "hello")
      = [⟨"Unknown Item", none, none⟩] :=
  ⟨(C6_extraction_fallback mockSettings .failure "x").2.1,
   (C6_extraction_fallback ⟨true, "key", false, ""⟩ (.success "hello") "hello").2.2.1
     (by rfl)⟩

/-- C7: the upload fails as NotFound when no transaction with the given id
belongs to the requesting user, and as BadRequest when the extracted item
list is empty; in both cases the store is returned unchanged — neither the
transaction set nor any item set is touched. -/
theorem C7_failure_no_mutation (s : Settings) (db : DB) (uid txid : ℤ)
    (items : List ParsedItem) :
    (db.transactions.find? (txPred uid txid) = none →
      process_upload s db uid txid items = (db, .error .notFound))
    ∧ (∀ tx, db.transactions.find? (txPred uid txid) = some tx → items = [] →
      process_upload s db uid txid items = (db, .error .badRequest)) := by
  constructor
  · intro h
    unfold process_upload
    rw [h]
  · intro tx h hitems
    unfold process_upload
    rw [h]
    subst hitems
    rfl

/-- Witness for C7: a store without the transaction, and one with it but an
empty extraction. -/
theorem C7_failure_no_mutation_witness :
    process_upload mockSettings ⟨[], []⟩ 1 1 [] = (⟨[], []⟩, .error .notFound)
    ∧ process_upload mockSettings sampleDB 1 1 [] = (sampleDB, .error .badRequest) :=
  ⟨(C7_failure_no_mutation mockSettings ⟨[], []⟩ 1 1 []).1 rfl,
   (C7_failure_no_mutation mockSettings sampleDB 1 1 []).2 sampleTx rfl rfl⟩

/-- C8: a successful upload replaces the transaction's stored item set
wholesale with exactly the items scored in that upload, leaves other
transactions' items untouched, and after two successful uploads the stored
set reflects only the second. -/
theorem C8_wholesale_replacement (s : Settings) (db : DB) (uid txid : ℤ)
    (items items' : List ParsedItem) (tx : Transaction)
    (hfind : db.transactions.find? (txPred uid txid) = some tx)
    (hne : items ≠ []) (hne' : items' ≠ []) :
    (process_upload s db uid txid items).1.receipt_items.filter
        (fun ri => ri.transaction_id == tx.id) = newItems s tx.id items
    ∧ (process_upload s db uid txid items).1.receipt_items.filter
        (fun ri => !(ri.transaction_id == tx.id))
        = db.receipt_items.filter (fun ri => !(ri.transaction_id == tx.id))
    ∧ (process_upload s (process_upload s db uid txid items).1 uid txid
          items').1.receipt_items.filter
        (fun ri => ri.transaction_id == tx.id) = newItems s tx.id items' := by
  rw [process_upload_success s db uid txid items tx hfind hne]
  refine ⟨?_, ?_, ?_⟩
  · exact filter_keep_append _ _ _ (newItems_txid s tx.id items)
  · exact filter_drop_append _ _ _ (newItems_txid s tx.id items)
  · have hfind2 := find?_after_update db.transactions tx
      { tx with
        eco_score := some (max 0 (min 10 (aggregate_score (newItems s tx.id items)))),
        needs_receipt := false,
        cashback_usd := some (compute_cashback tx.amount
          (some (max 0 (min 10 (aggregate_score (newItems s tx.id items)))))) }
      uid txid hfind rfl rfl
    rw [process_upload_success s _ uid txid items' _ hfind2 hne']
    exact filter_keep_append _ _ _ (newItems_txid s tx.id items')

/-- Witness for C8 at a one-transaction store and two one-item uploads. -/
theorem C8_wholesale_replacement_witness :
    (process_upload mockSettings sampleDB 1 1 [⟨"A", none, none⟩]).1.receipt_items.filter
        (fun ri => ri.transaction_id == sampleTx.id)
      = newItems mockSettings sampleTx.id [⟨"A", none, none⟩]
    ∧ (process_upload mockSettings
          (process_upload mockSettings sampleDB 1 1 [⟨"A", none, none⟩]).1 1 1
          [⟨"B", none, none⟩]).1.receipt_items.filter
        (fun ri => ri.transaction_id == sampleTx.id)
      = newItems mockSettings sampleTx.id [⟨"B", none, none⟩] :=
  ⟨(C8_wholesale_replacement mockSettings sampleDB 1 1 [⟨"A", none, none⟩]
      [⟨"B", none, none⟩] sampleTx rfl (by simp) (by simp)).1,
   (C8_wholesale_replacement mockSettings sampleDB 1 1 [⟨"A", none, none⟩]
      [⟨"B", none, none⟩] sampleTx rfl (by simp) (by simp)).2.2⟩

/-- C9: for every input and adapter behaviour, everything the upload persists
satisfies the invariants — every stored item that is not a pre-existing row
has an itemScore in [0,10] and a present, non-negative kgCO2e footprint, and
every stored transaction that is not a pre-existing row has an ecoScore in
[0,10]. -/
theorem C9_persisted_invariants (s : Settings) (o : OcrOutcome) (db : DB)
    (uid txid : ℤ) :
    (∀ ri ∈ (upload_receipt s db uid txid o).1.receipt_items,
        ri ∈ db.receipt_items ∨
        ((∃ sc, ri.item_score = some sc ∧ 0 ≤ sc ∧ sc ≤ 10) ∧
         (∃ k, ri.kg_co2e = some k ∧ 0 ≤ k)))
    ∧ (∀ t ∈ (upload_receipt s db uid txid o).1.transactions,
        t ∈ db.transactions ∨ (∃ e, t.eco_score = some e ∧ 0 ≤ e ∧ e ≤ 10)) := by
  unfold upload_receipt
  cases hfind : db.transactions.find? (txPred uid txid) with
  | none =>
    have hres : process_upload s db uid txid (parse_receipt s o)
        = (db, .error .notFound) := by
      unfold process_upload
      rw [hfind]
    rw [hres]
    exact ⟨fun ri hri => Or.inl hri, fun t ht => Or.inl ht⟩
  | some tx =>
    rw [process_upload_success s db uid txid _ tx hfind (parse_receipt_ne_nil s o)]
    constructor
    · intro ri hri
      rcases List.mem_append.mp hri with hold | hnew
      · exact Or.inl (List.mem_of_mem_filter hold)
      · right
        obtain ⟨it, hit, rfl⟩ := List.mem_map.mp hnew
        exact scoredItem_invariant s tx.id it
          (parse_receipt_price_nonneg s o it hit)
    · intro t ht
      obtain ⟨t0, ht0, rfl⟩ := List.mem_map.mp ht
      by_cases hid : (t0.id == tx.id) = true
      · rw [if_pos hid]
        exact Or.inr ⟨_, rfl, by omega, by omega⟩
      · rw [if_neg hid]
        exact Or.inl ht0

/-- Witness for C9: the invariant holds of the concrete item persisted by a
mock-mode upload into the sample store. -/
theorem C9_persisted_invariants_witness :
    (∃ sc, (scoredItem mockSettings 1 ⟨"Unknown Item", none, none⟩).item_score
        = some sc ∧ 0 ≤ sc ∧ sc ≤ 10)
    ∧ (∃ k, (scoredItem mockSettings 1 ⟨"Unknown Item", none, none⟩).kg_co2e
        = some k ∧ 0 ≤ k) := by
  have hmem : scoredItem mockSettings 1 ⟨"Unknown Item", none, none⟩
      ∈ (upload_receipt mockSettings sampleDB 1 1 .failure).1.receipt_items := by
    simp [upload_receipt, process_upload, parse_receipt, _mock_parse, mockSettings,
      sampleDB, sampleTx, newItems, txPred]
  rcases (C9_persisted_invariants mockSettings .failure sampleDB 1 1).1 _ hmem with
    hold | hnew
  · simp [sampleDB] at hold
  · exact hnew

/-- C10: the extractor returns at least one item for every configuration and
adapter behaviour, so the BadRequest branch of the upload is unreachable:
once the transaction lookup succeeds the upload completes with a result. -/
theorem C10_badrequest_unreachable (s : Settings) (o : OcrOutcome) (db : DB)
    (uid txid : ℤ) (tx : Transaction)
    (hfind : db.transactions.find? (txPred uid txid) = some tx) :
    parse_receipt s o ≠ []
    ∧ ∃ res, (upload_receipt s db uid txid o).2 = Except.ok res := by
  refine ⟨parse_receipt_ne_nil s o, ?_⟩
  unfold upload_receipt
  rw [process_upload_success s db uid txid _ tx hfind (parse_receipt_ne_nil s o)]
  exact ⟨_, rfl⟩

/-- Witness for C10 at the sample store in mock mode. -/
theorem C10_badrequest_unreachable_witness :
    parse_receipt mockSettings .failure ≠ []
    ∧ ∃ res, (upload_receipt mockSettings sampleDB 1 1 .failure).2 = Except.ok res :=
  C10_badrequest_unreachable mockSettings .failure sampleDB 1 1 sampleTx rfl
